import Mathlib

/-
  Verification of the compute-farm worker daemon (main.py) against its
  natural-language specification.

  The development shallowly embeds the program's functions:
    - push_results           -> pushResults (Publish Policy retry loop)
    - check_for_changes      -> cycleModel (one poll-loop cycle)
    - pull_repo              -> pullRepoModel
    - run_notebook           -> runNotebookModel
    - move_notebook          -> moveNotebookModel
    - log_exception/push_log -> logExceptionModel
    - module-level startup   -> startupModel / startupOutcome

  Subprocess/git/filesystem outcomes (which git commands fail, with what
  exception message, which random delays are drawn, whether run.ipynb is
  present, whether it parses, whether execution succeeds) are environment
  inputs; the model records the observable behaviour as an event trace.
-/

namespace ComputeFarm

/-- Boolean test that the first character list occurs at the head of the second. -/
def leadsList : List Char → List Char → Bool
  | [], _ => true
  | _ :: _, [] => false
  | a :: as, b :: bs => a == b && leadsList as bs

/-- Boolean test that the first character list occurs contiguously anywhere in the second. -/
def occursIn : List Char → List Char → Bool
  | n, [] => leadsList n []
  | n, b :: bs => leadsList n (b :: bs) || occursIn n bs

/-- Python substring containment `needle in hay`, as used on `str(e)` in push_results. -/
def containsSub (needle hay : String) : Bool := occursIn needle.data hay.data

/-- The message class that push_results answers with stash / pull --rebase / stash pop. -/
def stashMarker : String := "Please commit your changes or stash them before you merge"

/-- The message class that push_results answers with merge --abort. -/
def abortMarker : String := "fatal: cannot do a partial commit during a merge"

/-- Which checked subprocess call inside the try block of push_results raises
CalledProcessError first, together with the exception's string form. -/
inductive TryFail
  | add (msg : String)
  | commit (msg : String)
  | pullRebase (msg : String)
  | push (msg : String)
deriving DecidableEq

/-- The message carried by a TryFail. -/
def TryFail.msg : TryFail → String
  | .add m => m
  | .commit m => m
  | .pullRebase m => m
  | .push m => m

/-- Environment for one iteration of the push_results while loop: the value drawn
by random.randint(60, 180) for the pre-push delay, the first failing checked call
(none when the whole iteration succeeds), and the value drawn by
random.randint(30, 90) for the retry delay. -/
structure IterSpec where
  prePushDelay : Nat
  fail? : Option TryFail
  retryDelay : Nat
deriving DecidableEq

/-- Observable events of push_results, in program order. -/
inductive PEv
  | addAll
  | commitTry
  | prePushDelay (d : Nat)
  | pullRebaseTry
  | pushTry
  | pushOk
  | failLog (attempt : Nat) (msg : String)
  | stash
  | stashPullRebase
  | stashPop
  | mergeAbort
  | retryDelay (d : Nat)
  | maxRetriesLog
deriving DecidableEq

/-- Events of the try block of one push_results iteration: git add . ; git commit ;
sleep(randint(60,180)) ; git pull --rebase ; git push — cut off at the first
failing call (which raises CalledProcessError into the except handler). -/
def tryTrace (s : IterSpec) : List PEv :=
  match s.fail? with
  | none =>
      [PEv.addAll, PEv.commitTry, PEv.prePushDelay s.prePushDelay,
       PEv.pullRebaseTry, PEv.pushTry, PEv.pushOk]
  | some (.add _) => [PEv.addAll]
  | some (.commit _) => [PEv.addAll, PEv.commitTry]
  | some (.pullRebase _) =>
      [PEv.addAll, PEv.commitTry, PEv.prePushDelay s.prePushDelay, PEv.pullRebaseTry]
  | some (.push _) =>
      [PEv.addAll, PEv.commitTry, PEv.prePushDelay s.prePushDelay,
       PEv.pullRebaseTry, PEv.pushTry]

/-- The classification branch of the except handler: substring tests on str(e). -/
def classTrace (m : String) : List PEv :=
  if containsSub stashMarker m then [PEv.stash, PEv.stashPullRebase, PEv.stashPop]
  else if containsSub abortMarker m then [PEv.mergeAbort]
  else []

/-- Events of the except handler: log the failed attempt, run the classified
recovery, then either sleep the fresh randint(30,90) retry delay (when more
attempts remain) or log that the maximum was reached. -/
def handlerTrace (attempt : Nat) (m : String) (rd : Nat) : List PEv :=
  [PEv.failLog attempt m] ++ classTrace m ++
    (if attempt < 3 then [PEv.retryDelay rd] else [PEv.maxRetriesLog])

/-- The while loop of push_results: `r` is the Python retries counter, the fuel
argument is 3 - retries (the loop guard retries < max_retries bounds the
iteration count). Returns the event trace and whether a push succeeded. -/
def pushResultsAux (env : Nat → IterSpec) : Nat → Nat → List PEv × Bool
  | _, 0 => ([], false)
  | r, f + 1 =>
    match (env r).fail? with
    | none => (tryTrace (env r), true)
    | some tf =>
      if r + 1 < 3 then
        (tryTrace (env r) ++ handlerTrace (r + 1) tf.msg (env r).retryDelay ++
           (pushResultsAux env (r + 1) f).1,
         (pushResultsAux env (r + 1) f).2)
      else
        (tryTrace (env r) ++ handlerTrace (r + 1) tf.msg (env r).retryDelay, false)

/-- push_results: up to max_retries = 3 iterations starting from retries = 0.
The function's only exit points are the return after a successful push and the
return after the max-retries log line, so the embedding is total: every
CalledProcessError raised inside the try block is caught by the except clause,
and the recovery subprocess calls are run without check=True and cannot raise. -/
def pushResults (env : Nat → IterSpec) : List PEv × Bool :=
  pushResultsAux env 0 3

lemma pushAuxS_none (env : Nat → IterSpec) (r f : Nat) (h : (env r).fail? = none) :
    pushResultsAux env r (f + 1) = (tryTrace (env r), true) := by
  conv_lhs => unfold pushResultsAux
  simp only [h]

lemma pushAuxS_fail (env : Nat → IterSpec) (r f : Nat) (tf : TryFail)
    (h : (env r).fail? = some tf) (hlt : r + 1 < 3) :
    pushResultsAux env r (f + 1) =
      (tryTrace (env r) ++ handlerTrace (r + 1) tf.msg (env r).retryDelay ++
         (pushResultsAux env (r + 1) f).1,
       (pushResultsAux env (r + 1) f).2) := by
  conv_lhs => unfold pushResultsAux
  simp only [h]
  rw [if_pos hlt]

lemma pushAuxS_fail_last (env : Nat → IterSpec) (r f : Nat) (tf : TryFail)
    (h : (env r).fail? = some tf) (hge : ¬ r + 1 < 3) :
    pushResultsAux env r (f + 1) =
      (tryTrace (env r) ++ handlerTrace (r + 1) tf.msg (env r).retryDelay, false) := by
  conv_lhs => unfold pushResultsAux
  simp only [h]
  rw [if_neg hge]

/-- Recogniser for the addAll event (start of one commit-and-push iteration). -/
def isAddAll : PEv → Bool
  | PEv.addAll => true
  | _ => false

/-- Recogniser for failed-attempt log events. -/
def isFailLog : PEv → Bool
  | PEv.failLog _ _ => true
  | _ => false

/-- Recogniser for the randint(60,180) pre-push delay event. -/
def isPrePushDelay : PEv → Bool
  | PEv.prePushDelay _ => true
  | _ => false

/-- Number of commit-and-push iterations recorded in a trace. -/
def iterCount (tr : List PEv) : Nat := tr.countP isAddAll

/-- Number of failed publish attempts recorded in a trace. -/
def failCount (tr : List PEv) : Nat := tr.countP isFailLog

/-- True when some pre-push delay event occurs after a stash-pop recovery. -/
def prePushAfterStashPop : List PEv → Bool
  | [] => false
  | PEv.stashPop :: rest => rest.any isPrePushDelay || prePushAfterStashPop rest
  | _ :: rest => prePushAfterStashPop rest

lemma iterCount_append (xs ys : List PEv) :
    iterCount (xs ++ ys) = iterCount xs + iterCount ys := by
  simp [iterCount, List.countP_append]

lemma iterCount_tryTrace (s : IterSpec) : iterCount (tryTrace s) = 1 := by
  unfold tryTrace
  rcases h : s.fail? with _ | tf
  · simp [iterCount, List.countP_cons, isAddAll]
  · rcases tf with m | m | m | m <;> simp [iterCount, List.countP_cons, isAddAll]

lemma iterCount_handlerTrace (a : Nat) (m : String) (rd : Nat) :
    iterCount (handlerTrace a m rd) = 0 := by
  unfold handlerTrace classTrace
  split_ifs <;>
    simp [iterCount, List.countP_cons, List.countP_append, isAddAll]

lemma pushOk_not_mem_handlerTrace (a : Nat) (m : String) (rd : Nat) :
    PEv.pushOk ∉ handlerTrace a m rd := by
  unfold handlerTrace classTrace
  split_ifs <;> simp

lemma pushOk_not_mem_tryTrace_fail (s : IterSpec) (tf : TryFail) (h : s.fail? = some tf) :
    PEv.pushOk ∉ tryTrace s := by
  unfold tryTrace
  rw [h]
  rcases tf with m | m | m | m <;> simp

lemma pushAux_iterCount (env : Nat → IterSpec) (f : Nat) :
    ∀ r, iterCount (pushResultsAux env r f).1 ≤ f := by
  induction f with
  | zero => intro r; simp [pushResultsAux, iterCount]
  | succ f ih =>
    intro r
    rcases h : (env r).fail? with _ | tf
    · rw [pushAuxS_none env r f h]
      simp [iterCount_tryTrace]
    · by_cases hlt : r + 1 < 3
      · rw [pushAuxS_fail env r f tf h hlt]
        simp only [iterCount_append, iterCount_tryTrace, iterCount_handlerTrace]
        have := ih (r + 1)
        omega
      · rw [pushAuxS_fail_last env r f tf h hlt]
        simp only [iterCount_append, iterCount_tryTrace, iterCount_handlerTrace]
        omega

lemma pushAux_unpushed (env : Nat → IterSpec) (f : Nat) :
    ∀ r, (pushResultsAux env r f).2 = false → PEv.pushOk ∉ (pushResultsAux env r f).1 := by
  induction f with
  | zero => intro r _; simp [pushResultsAux]
  | succ f ih =>
    intro r hsnd
    rcases h : (env r).fail? with _ | tf
    · rw [pushAuxS_none env r f h] at hsnd
      simp at hsnd
    · by_cases hlt : r + 1 < 3
      · rw [pushAuxS_fail env r f tf h hlt] at hsnd ⊢
        simp only [List.mem_append, not_or]
        exact ⟨⟨pushOk_not_mem_tryTrace_fail _ tf h, pushOk_not_mem_handlerTrace _ _ _⟩,
          ih (r + 1) hsnd⟩
      · rw [pushAuxS_fail_last env r f tf h hlt]
        simp only [List.mem_append, not_or]
        exact ⟨pushOk_not_mem_tryTrace_fail _ tf h, pushOk_not_mem_handlerTrace _ _ _⟩

/-- C2: push_results runs the commit-and-push cycle at most 3 times; it always
returns normally (the embedding is a total function: every CalledProcessError
from the checked calls is caught by the except clause, and the recovery calls
are run without check=True), and when no attempt succeeds no push lands, i.e.
the local commit remains unpushed. -/
theorem c2_push_retry_bounded (env : Nat → IterSpec) :
    iterCount (pushResults env).1 ≤ 3 ∧
      ((pushResults env).2 = false → PEv.pushOk ∉ (pushResults env).1) :=
  ⟨pushAux_iterCount env 3 0, fun h => pushAux_unpushed env 3 0 h⟩

/-- An environment where every push attempt fails with an unclassified message. -/
def envAllFail : Nat → IterSpec := fun _ => ⟨60, some (TryFail.push "exit status 1."), 30⟩

/-- Witness for C2 at a concrete all-failing environment: the bound holds and,
since the returned flag is false, no successful push event is in the trace. -/
theorem c2_witness :
    iterCount (pushResults envAllFail).1 ≤ 3 ∧ PEv.pushOk ∉ (pushResults envAllFail).1 :=
  ⟨(c2_push_retry_bounded envAllFail).1, (c2_push_retry_bounded envAllFail).2 (by decide)⟩

/-- C3 amended: a push failure whose message is of the working-tree-not-clean
class triggers exactly stash / pull --rebase / stash pop, then a fresh
randint(30,90) retry delay, and then the while loop restarts from git add and
git commit, re-applying a new randint(60,180) pre-push delay strictly before
the retried push (the retry does not resume at the push step). -/
theorem c3_recovery_then_full_restart (env : Nat → IterSpec) (m : String)
    (h0 : (env 0).fail? = some (TryFail.push m))
    (hm : containsSub stashMarker m = true)
    (h1 : (env 1).fail? = none) :
    (pushResults env).1 =
      [PEv.addAll, PEv.commitTry, PEv.prePushDelay (env 0).prePushDelay,
       PEv.pullRebaseTry, PEv.pushTry,
       PEv.failLog 1 m, PEv.stash, PEv.stashPullRebase, PEv.stashPop,
       PEv.retryDelay (env 0).retryDelay,
       PEv.addAll, PEv.commitTry, PEv.prePushDelay (env 1).prePushDelay,
       PEv.pullRebaseTry, PEv.pushTry, PEv.pushOk] ∧
    (pushResults env).2 = true := by
  have e0 : pushResultsAux env 0 3 =
      (tryTrace (env 0) ++ handlerTrace 1 (TryFail.msg (TryFail.push m)) (env 0).retryDelay ++
         (pushResultsAux env 1 2).1,
       (pushResultsAux env 1 2).2) :=
    pushAuxS_fail env 0 2 (TryFail.push m) h0 (by omega)
  have e1 : pushResultsAux env 1 2 = (tryTrace (env 1), true) :=
    pushAuxS_none env 1 1 h1
  constructor
  · rw [pushResults, e0, e1]
    unfold tryTrace
    rw [h0, h1]
    simp [handlerTrace, classTrace, hm, TryFail.msg]
  · rw [pushResults, e0, e1]

/-- Concrete environment where the first push fails with the
working-tree-not-clean message and the second iteration succeeds. -/
def envStashThenOk : Nat → IterSpec
  | 0 => ⟨77, some (TryFail.push stashMarker), 41⟩
  | _ => ⟨88, none, 42⟩

/-- C3 counterexample: after the stash / rebase-pull / stash-pop recovery, a new
randint(60,180) pre-push delay event occurs before the retried push — refuting
the claim that the retry resumes at the push step with no new pre-push delay. -/
theorem c3_claim_false : prePushAfterStashPop (pushResults envStashThenOk).1 = true := by
  decide

/-- Witness for C3 amended at the concrete environment envStashThenOk. -/
theorem c3_witness :
    (pushResults envStashThenOk).1 =
      [PEv.addAll, PEv.commitTry, PEv.prePushDelay 77, PEv.pullRebaseTry, PEv.pushTry,
       PEv.failLog 1 stashMarker, PEv.stash, PEv.stashPullRebase, PEv.stashPop,
       PEv.retryDelay 41,
       PEv.addAll, PEv.commitTry, PEv.prePushDelay 88, PEv.pullRebaseTry, PEv.pushTry,
       PEv.pushOk] ∧
    (pushResults envStashThenOk).2 = true :=
  c3_recovery_then_full_restart envStashThenOk stashMarker rfl (by decide) rfl

/-- C7 amended: a commit that raises CalledProcessError (as git commit does when
the working tree is clean and it exits non-zero reporting nothing to commit) is
counted as a failed publish attempt and goes through the failure-classification
path; if every iteration's commit fails with an unclassified message, all 3
attempts are consumed, nothing is ever pushed, and push_results gives up. -/
theorem c7_clean_commit_counts_as_failure (env : Nat → IterSpec) (m0 m1 m2 : String)
    (h0 : (env 0).fail? = some (TryFail.commit m0)) (c0 : classTrace m0 = [])
    (h1 : (env 1).fail? = some (TryFail.commit m1)) (c1 : classTrace m1 = [])
    (h2 : (env 2).fail? = some (TryFail.commit m2)) (c2 : classTrace m2 = []) :
    (pushResults env).1 =
      [PEv.addAll, PEv.commitTry, PEv.failLog 1 m0, PEv.retryDelay (env 0).retryDelay,
       PEv.addAll, PEv.commitTry, PEv.failLog 2 m1, PEv.retryDelay (env 1).retryDelay,
       PEv.addAll, PEv.commitTry, PEv.failLog 3 m2, PEv.maxRetriesLog] ∧
    (pushResults env).2 = false ∧
    failCount (pushResults env).1 = 3 := by
  have e0 : pushResultsAux env 0 3 =
      (tryTrace (env 0) ++ handlerTrace 1 (TryFail.msg (TryFail.commit m0)) (env 0).retryDelay ++
         (pushResultsAux env 1 2).1,
       (pushResultsAux env 1 2).2) :=
    pushAuxS_fail env 0 2 (TryFail.commit m0) h0 (by omega)
  have e1 : pushResultsAux env 1 2 =
      (tryTrace (env 1) ++ handlerTrace 2 (TryFail.msg (TryFail.commit m1)) (env 1).retryDelay ++
         (pushResultsAux env 2 1).1,
       (pushResultsAux env 2 1).2) :=
    pushAuxS_fail env 1 1 (TryFail.commit m1) h1 (by omega)
  have e2 : pushResultsAux env 2 1 =
      (tryTrace (env 2) ++ handlerTrace 3 (TryFail.msg (TryFail.commit m2)) (env 2).retryDelay,
       false) :=
    pushAuxS_fail_last env 2 0 (TryFail.commit m2) h2 (by omega)
  have etr : (pushResults env).1 =
      [PEv.addAll, PEv.commitTry, PEv.failLog 1 m0, PEv.retryDelay (env 0).retryDelay,
       PEv.addAll, PEv.commitTry, PEv.failLog 2 m1, PEv.retryDelay (env 1).retryDelay,
       PEv.addAll, PEv.commitTry, PEv.failLog 3 m2, PEv.maxRetriesLog] := by
    rw [pushResults, e0, e1, e2]
    unfold tryTrace
    rw [h0, h1, h2]
    simp [handlerTrace, c0, c1, c2, TryFail.msg]
  refine ⟨etr, ?_, ?_⟩
  · rw [pushResults, e0, e1, e2]
  · rw [etr]
    simp [failCount, List.countP_cons, isFailLog]

/-- Concrete environment for a persistently clean working tree: git commit exits
non-zero every iteration (in CPython, str(e) is the CalledProcessError text for
the commit command, which matches neither recovery class). -/
def envCleanTree : Nat → IterSpec :=
  fun _ => ⟨66, some (TryFail.commit "returned non-zero exit status 1."), 33⟩

/-- C7 counterexample: with a clean working tree at every attempt, the commit
failure is counted as a failed publish attempt each time (3 failed attempts are
logged, not 0) and the failure-classification handler runs — refuting the claim
that a clean-tree commit is a non-error that never counts as a failed attempt. -/
theorem c7_claim_false :
    failCount (pushResults envCleanTree).1 = 3 ∧
      PEv.maxRetriesLog ∈ (pushResults envCleanTree).1 ∧
      (pushResults envCleanTree).2 = false := by
  decide

/-- Witness for C7 amended at the concrete environment envCleanTree. -/
theorem c7_witness :
    (pushResults envCleanTree).1 =
      [PEv.addAll, PEv.commitTry, PEv.failLog 1 "returned non-zero exit status 1.",
       PEv.retryDelay 33,
       PEv.addAll, PEv.commitTry, PEv.failLog 2 "returned non-zero exit status 1.",
       PEv.retryDelay 33,
       PEv.addAll, PEv.commitTry, PEv.failLog 3 "returned non-zero exit status 1.",
       PEv.maxRetriesLog] ∧
    (pushResults envCleanTree).2 = false ∧
    failCount (pushResults envCleanTree).1 = 3 :=
  c7_clean_commit_counts_as_failure envCleanTree _ _ _ rfl (by decide) rfl (by decide) rfl
    (by decide)

/-- Filesystem state relevant to one worker: whether run.ipynb is present in
the machine folder (the inbox), and the file names accumulated in results/. -/
structure FS where
  inbox : Bool
  results : List String
deriving DecidableEq

/-- Observable events of one poll cycle of check_for_changes, in program order. -/
inductive CEv
  | fetchCall
  | revParseCall
  | logNewChanges
  | pullCall
  | pipInstall
  | enterRun
  | logNoNotebook
  | readNb
  | preprocess
  | saveNb
  | logExecSuccess
  | moveNb (status : String) (name : String)
  | logExc
  | pushLogCall
  | pushResultsCall
  | sleepPoll
deriving DecidableEq

/-- The status tag move_notebook writes into the result file name. -/
def statusStr (errorOccurred : Bool) : String :=
  if errorOccurred then "error" else "success"

/-- The result file name move_notebook produces:
run_{MACHINE_NUMBER}_{status}_{timestamp}.ipynb. -/
def resultName (machine status ts : String) : String :=
  "run_" ++ machine ++ "_" ++ status ++ "_" ++ ts ++ ".ipynb"

/-- Output of move_notebook: the new filesystem state, the returned path
(None when no run.ipynb was present), and the events. -/
structure MoveOut where
  fs : FS
  moved? : Option String
  evs : List CEv
deriving DecidableEq

/-- move_notebook: if run.ipynb exists in the machine folder, rename-move it to
results/run_{machine}_{status}_{timestamp}.ipynb and return the new path,
otherwise do nothing and return None. -/
def moveNotebookModel (machine ts : String) (errorOccurred : Bool) (fs : FS) : MoveOut :=
  if fs.inbox = true then
    ⟨⟨false, fs.results ++ [resultName machine (statusStr errorOccurred) ts]⟩,
     some (resultName machine (statusStr errorOccurred) ts),
     [CEv.moveNb (statusStr errorOccurred) (resultName machine (statusStr errorOccurred) ts)]⟩
  else ⟨fs, none, []⟩

/-- Output of a step that may change the filesystem and emit events. -/
structure StepOut where
  fs : FS
  evs : List CEv
deriving DecidableEq

/-- log_exception: write the traceback to the log, move the notebook (if
present) to results/ with error_occurred=True, then push_log (git add/commit/
push of log.txt inside its own try/except, so it never raises). -/
def logExceptionModel (machine ts : String) (fs : FS) : StepOut :=
  ⟨(moveNotebookModel machine ts true fs).fs,
   [CEv.logExc] ++ (moveNotebookModel machine ts true fs).evs ++ [CEv.pushLogCall]⟩

/-- pull_repo: git pull origin main (checked), then, when requirements.txt
exists, pip install -r requirements.txt (checked); a CalledProcessError from
either is caught in pull_repo's own except clause, which calls log_exception
and returns normally. -/
def pullRepoModel (machine ts : String) (pullOk reqExists pipOk : Bool) (fs : FS) : StepOut :=
  if pullOk = true then
    if reqExists = true then
      if pipOk = true then ⟨fs, [CEv.pullCall, CEv.pipInstall]⟩
      else
        ⟨(logExceptionModel machine ts fs).fs,
         [CEv.pullCall, CEv.pipInstall] ++ (logExceptionModel machine ts fs).evs⟩
    else ⟨fs, [CEv.pullCall]⟩
  else
    ⟨(logExceptionModel machine ts fs).fs,
     [CEv.pullCall] ++ (logExceptionModel machine ts fs).evs⟩

/-- Output of run_notebook: the returned boolean, the filesystem, the events. -/
structure RunOut where
  ok : Bool
  fs : FS
  evs : List CEv
deriving DecidableEq

/-- run_notebook: if no run.ipynb exists, log and return False; otherwise read
it with nbformat (a malformed document raises here, before the
ExecutePreprocessor is even constructed), execute it with ep.preprocess, save
it back and move it to results/ with error_occurred=False, returning True; any
exception is caught and handed to log_exception (which moves the notebook with
error_occurred=True), returning False. -/
def runNotebookModel (machine ts : String) (parseOk execOk : Bool) (fs : FS) : RunOut :=
  if fs.inbox = false then ⟨false, fs, [CEv.enterRun, CEv.logNoNotebook]⟩
  else if parseOk = false then
    ⟨false, (logExceptionModel machine ts fs).fs,
     [CEv.enterRun, CEv.readNb] ++ (logExceptionModel machine ts fs).evs⟩
  else if execOk = false then
    ⟨false, (logExceptionModel machine ts fs).fs,
     [CEv.enterRun, CEv.readNb, CEv.preprocess] ++ (logExceptionModel machine ts fs).evs⟩
  else
    ⟨true, (moveNotebookModel machine ts false fs).fs,
     [CEv.enterRun, CEv.readNb, CEv.preprocess, CEv.saveNb, CEv.logExecSuccess] ++
       (moveNotebookModel machine ts false fs).evs⟩

/-- Environment of one poll cycle: outcomes of git fetch and git rev-parse
origin/main, of pull_repo's two checked calls, of nbformat parsing and notebook
execution, the timestamp used in result names, and the push_results
environment. -/
structure CycleEnv where
  fetchOk : Bool
  ref? : Option String
  pullOk : Bool
  reqExists : Bool
  pipOk : Bool
  parseOk : Bool
  execOk : Bool
  ts : String
  pushEnv : Nat → IterSpec

/-- Output of one poll cycle: the new last_commit, the filesystem, the cycle
events, and the push_results trace and outcome when push_results was invoked. -/
structure CycleOut where
  last : Option String
  fs : FS
  evs : List CEv
  pushTrace : List PEv
  pushed : Bool

/-- One iteration of the while loop of check_for_changes: git fetch, git
rev-parse origin/main (both checked; CalledProcessError goes to the except
clause which calls log_exception), then, when the observed ref differs from
last_commit, record it, pull_repo, run_notebook, and push_results only if
run_notebook returned True; finally sleep the 30s poll interval. -/
def cycleModel (machine : String) (env : CycleEnv) (last : Option String) (fs : FS) :
    CycleOut :=
  if env.fetchOk = false then
    ⟨last, (logExceptionModel machine env.ts fs).fs,
     [CEv.fetchCall] ++ (logExceptionModel machine env.ts fs).evs ++ [CEv.sleepPoll],
     [], false⟩
  else
    match env.ref? with
    | none =>
        ⟨last, (logExceptionModel machine env.ts fs).fs,
         [CEv.fetchCall, CEv.revParseCall] ++ (logExceptionModel machine env.ts fs).evs ++
           [CEv.sleepPoll],
         [], false⟩
    | some r =>
        if some r = last then
          ⟨last, fs, [CEv.fetchCall, CEv.revParseCall, CEv.sleepPoll], [], false⟩
        else
          if (runNotebookModel machine env.ts env.parseOk env.execOk
                (pullRepoModel machine env.ts env.pullOk env.reqExists env.pipOk fs).fs).ok
              = true then
            ⟨some r,
             (runNotebookModel machine env.ts env.parseOk env.execOk
               (pullRepoModel machine env.ts env.pullOk env.reqExists env.pipOk fs).fs).fs,
             [CEv.fetchCall, CEv.revParseCall, CEv.logNewChanges] ++
               (pullRepoModel machine env.ts env.pullOk env.reqExists env.pipOk fs).evs ++
               (runNotebookModel machine env.ts env.parseOk env.execOk
                 (pullRepoModel machine env.ts env.pullOk env.reqExists env.pipOk fs).fs).evs ++
               [CEv.pushResultsCall, CEv.sleepPoll],
             (pushResults env.pushEnv).1, (pushResults env.pushEnv).2⟩
          else
            ⟨some r,
             (runNotebookModel machine env.ts env.parseOk env.execOk
               (pullRepoModel machine env.ts env.pullOk env.reqExists env.pipOk fs).fs).fs,
             [CEv.fetchCall, CEv.revParseCall, CEv.logNewChanges] ++
               (pullRepoModel machine env.ts env.pullOk env.reqExists env.pipOk fs).evs ++
               (runNotebookModel machine env.ts env.parseOk env.execOk
                 (pullRepoModel machine env.ts env.pullOk env.reqExists env.pipOk fs).fs).evs ++
               [CEv.sleepPoll],
             [], false⟩

/-- The initial value of last_commit in check_for_changes (Python None): no ref
has been observed yet, so any rev-parse result compares as different. -/
def initialLastCommit : Option String := none

lemma moveOut_inbox (machine ts : String) (err : Bool) (fs : FS) :
    (moveNotebookModel machine ts err fs).fs.inbox = false := by
  unfold moveNotebookModel
  split
  · rfl
  · rename_i h
    simpa using h

lemma moveOut_evs_cases (machine ts : String) (err : Bool) (fs : FS) :
    (moveNotebookModel machine ts err fs).evs = [] ∨
    (moveNotebookModel machine ts err fs).evs =
      [CEv.moveNb (statusStr err) (resultName machine (statusStr err) ts)] := by
  unfold moveNotebookModel
  split
  · right; rfl
  · left; rfl

lemma not_mem_move (machine ts : String) (err : Bool) (fs : FS) (e : CEv)
    (h3 : ∀ s n, e ≠ CEv.moveNb s n) :
    e ∉ (moveNotebookModel machine ts err fs).evs := by
  rcases moveOut_evs_cases machine ts err fs with h | h <;> simp [h, h3]

lemma not_mem_logExc (machine ts : String) (fs : FS) (e : CEv)
    (h1 : e ≠ CEv.logExc) (h2 : e ≠ CEv.pushLogCall)
    (h3 : ∀ s n, e ≠ CEv.moveNb s n) :
    e ∉ (logExceptionModel machine ts fs).evs := by
  unfold logExceptionModel
  simp [h1, h2, not_mem_move machine ts true fs e h3]

lemma logExc_inbox (machine ts : String) (fs : FS) :
    (logExceptionModel machine ts fs).fs.inbox = false :=
  moveOut_inbox machine ts true fs

lemma logExc_mem (machine ts : String) (fs : FS) :
    CEv.logExc ∈ (logExceptionModel machine ts fs).evs ∧
    CEv.pushLogCall ∈ (logExceptionModel machine ts fs).evs := by
  unfold logExceptionModel
  simp

lemma logExc_move (machine ts : String) (fs : FS) (h : fs.inbox = true) :
    CEv.moveNb "error" (resultName machine "error" ts) ∈ (logExceptionModel machine ts fs).evs ∧
    (logExceptionModel machine ts fs).fs.results =
      fs.results ++ [resultName machine "error" ts] := by
  unfold logExceptionModel moveNotebookModel
  simp [h, statusStr]

lemma pull_mem_pullCall (machine ts : String) (pullOk reqExists pipOk : Bool) (fs : FS) :
    CEv.pullCall ∈ (pullRepoModel machine ts pullOk reqExists pipOk fs).evs := by
  unfold pullRepoModel
  split_ifs <;> simp

lemma pull_ok_fs (machine ts : String) (reqExists pipOk : Bool) (fs : FS)
    (hh : reqExists = false ∨ pipOk = true) :
    (pullRepoModel machine ts true reqExists pipOk fs).fs = fs := by
  unfold pullRepoModel
  rcases hh with h | h
  · simp [h]
  · simp [h]
    split <;> rfl

lemma pull_fail (machine ts : String) (pullOk reqExists pipOk : Bool) (fs : FS)
    (hfail : pullOk = false ∨ (reqExists = true ∧ pipOk = false)) :
    (pullRepoModel machine ts pullOk reqExists pipOk fs).fs =
      (logExceptionModel machine ts fs).fs ∧
    CEv.logExc ∈ (pullRepoModel machine ts pullOk reqExists pipOk fs).evs ∧
    (fs.inbox = true →
      CEv.moveNb "error" (resultName machine "error" ts) ∈
        (pullRepoModel machine ts pullOk reqExists pipOk fs).evs) := by
  have key : (pullRepoModel machine ts pullOk reqExists pipOk fs).fs =
      (logExceptionModel machine ts fs).fs ∧
      ∀ e, e ∈ (logExceptionModel machine ts fs).evs →
        e ∈ (pullRepoModel machine ts pullOk reqExists pipOk fs).evs := by
    rcases hfail with h | ⟨h1, h2⟩
    · unfold pullRepoModel
      simp [h]
      intro e he
      exact Or.inr he
    · unfold pullRepoModel
      simp [h1, h2]
      split
      · simp
        intro e he
        exact Or.inr (Or.inr he)
      · simp
        intro e he
        exact Or.inr he
  refine ⟨key.1, key.2 _ (logExc_mem machine ts fs).1, fun hin => key.2 _ (logExc_move machine ts fs hin).1⟩

lemma not_mem_pullRepo (machine ts : String) (pullOk reqExists pipOk : Bool) (fs : FS) (e : CEv)
    (h0 : e ≠ CEv.pullCall) (h4 : e ≠ CEv.pipInstall)
    (h1 : e ≠ CEv.logExc) (h2 : e ≠ CEv.pushLogCall)
    (h3 : ∀ s n, e ≠ CEv.moveNb s n) :
    e ∉ (pullRepoModel machine ts pullOk reqExists pipOk fs).evs := by
  unfold pullRepoModel
  split_ifs <;>
    simp [h0, h4, h1, h2, not_mem_logExc machine ts fs e h1 h2 h3]

lemma run_noInbox (machine ts : String) (parseOk execOk : Bool) (fs : FS)
    (h : fs.inbox = false) :
    runNotebookModel machine ts parseOk execOk fs =
      ⟨false, fs, [CEv.enterRun, CEv.logNoNotebook]⟩ := by
  unfold runNotebookModel
  simp [h]

lemma run_parseFail (machine ts : String) (execOk : Bool) (fs : FS) (h : fs.inbox = true) :
    runNotebookModel machine ts false execOk fs =
      ⟨false, (logExceptionModel machine ts fs).fs,
       [CEv.enterRun, CEv.readNb] ++ (logExceptionModel machine ts fs).evs⟩ := by
  unfold runNotebookModel
  simp [h]

lemma run_execFail (machine ts : String) (fs : FS) (h : fs.inbox = true) :
    runNotebookModel machine ts true false fs =
      ⟨false, (logExceptionModel machine ts fs).fs,
       [CEv.enterRun, CEv.readNb, CEv.preprocess] ++ (logExceptionModel machine ts fs).evs⟩ := by
  unfold runNotebookModel
  simp [h]

lemma run_allOk (machine ts : String) (fs : FS) (h : fs.inbox = true) :
    runNotebookModel machine ts true true fs =
      ⟨true, (moveNotebookModel machine ts false fs).fs,
       [CEv.enterRun, CEv.readNb, CEv.preprocess, CEv.saveNb, CEv.logExecSuccess] ++
         (moveNotebookModel machine ts false fs).evs⟩ := by
  unfold runNotebookModel
  simp [h]

lemma run_ok_iff (machine ts : String) (parseOk execOk : Bool) (fs : FS) :
    (runNotebookModel machine ts parseOk execOk fs).ok = (fs.inbox && parseOk && execOk) := by
  cases hin : fs.inbox
  · rw [run_noInbox machine ts parseOk execOk fs hin]
    rfl
  · cases hp : parseOk
    · rw [run_parseFail machine ts execOk fs hin]
      rfl
    · cases hex : execOk
      · rw [run_execFail machine ts fs hin]
        rfl
      · rw [run_allOk machine ts fs hin]
        rfl

lemma run_enterRun_mem (machine ts : String) (parseOk execOk : Bool) (fs : FS) :
    CEv.enterRun ∈ (runNotebookModel machine ts parseOk execOk fs).evs := by
  unfold runNotebookModel
  split_ifs <;> simp

lemma not_mem_run (machine ts : String) (parseOk execOk : Bool) (fs : FS) (e : CEv)
    (hA : e ≠ CEv.enterRun) (hB : e ≠ CEv.logNoNotebook) (hC : e ≠ CEv.readNb)
    (hD : e ≠ CEv.preprocess) (hE : e ≠ CEv.saveNb) (hF : e ≠ CEv.logExecSuccess)
    (h1 : e ≠ CEv.logExc) (h2 : e ≠ CEv.pushLogCall)
    (h3 : ∀ s n, e ≠ CEv.moveNb s n) :
    e ∉ (runNotebookModel machine ts parseOk execOk fs).evs := by
  unfold runNotebookModel
  split_ifs <;>
    simp [hA, hB, hC, hD, hE, hF, h1, h2,
      not_mem_logExc machine ts fs e h1 h2 h3,
      not_mem_move machine ts false fs e h3]

lemma cycle_fetchFail (machine : String) (env : CycleEnv) (last : Option String) (fs : FS)
    (h : env.fetchOk = false) :
    cycleModel machine env last fs =
      ⟨last, (logExceptionModel machine env.ts fs).fs,
       [CEv.fetchCall] ++ (logExceptionModel machine env.ts fs).evs ++ [CEv.sleepPoll],
       [], false⟩ := by
  unfold cycleModel
  simp [h]

lemma cycle_revFail (machine : String) (env : CycleEnv) (last : Option String) (fs : FS)
    (hf : env.fetchOk = true) (hr : env.ref? = none) :
    cycleModel machine env last fs =
      ⟨last, (logExceptionModel machine env.ts fs).fs,
       [CEv.fetchCall, CEv.revParseCall] ++ (logExceptionModel machine env.ts fs).evs ++
         [CEv.sleepPoll],
       [], false⟩ := by
  unfold cycleModel
  simp [hf, hr]

lemma cycle_nochange (machine : String) (env : CycleEnv) (last : Option String) (fs : FS)
    (r : String) (hf : env.fetchOk = true) (hr : env.ref? = some r) (heq : some r = last) :
    cycleModel machine env last fs =
      ⟨last, fs, [CEv.fetchCall, CEv.revParseCall, CEv.sleepPoll], [], false⟩ := by
  unfold cycleModel
  simp only [hf, hr]
  rw [if_pos heq]
  simp

lemma cycle_changed_run (machine : String) (env : CycleEnv) (last : Option String) (fs : FS)
    (r : String) (hf : env.fetchOk = true) (hr : env.ref? = some r) (hne : ¬ some r = last)
    (hok : (runNotebookModel machine env.ts env.parseOk env.execOk
        (pullRepoModel machine env.ts env.pullOk env.reqExists env.pipOk fs).fs).ok = true) :
    cycleModel machine env last fs =
      ⟨some r,
       (runNotebookModel machine env.ts env.parseOk env.execOk
         (pullRepoModel machine env.ts env.pullOk env.reqExists env.pipOk fs).fs).fs,
       [CEv.fetchCall, CEv.revParseCall, CEv.logNewChanges] ++
         (pullRepoModel machine env.ts env.pullOk env.reqExists env.pipOk fs).evs ++
         (runNotebookModel machine env.ts env.parseOk env.execOk
           (pullRepoModel machine env.ts env.pullOk env.reqExists env.pipOk fs).fs).evs ++
         [CEv.pushResultsCall, CEv.sleepPoll],
       (pushResults env.pushEnv).1, (pushResults env.pushEnv).2⟩ := by
  unfold cycleModel
  simp [hf, hr, hne, hok]

lemma cycle_changed_norun (machine : String) (env : CycleEnv) (last : Option String) (fs : FS)
    (r : String) (hf : env.fetchOk = true) (hr : env.ref? = some r) (hne : ¬ some r = last)
    (hok : (runNotebookModel machine env.ts env.parseOk env.execOk
        (pullRepoModel machine env.ts env.pullOk env.reqExists env.pipOk fs).fs).ok = false) :
    cycleModel machine env last fs =
      ⟨some r,
       (runNotebookModel machine env.ts env.parseOk env.execOk
         (pullRepoModel machine env.ts env.pullOk env.reqExists env.pipOk fs).fs).fs,
       [CEv.fetchCall, CEv.revParseCall, CEv.logNewChanges] ++
         (pullRepoModel machine env.ts env.pullOk env.reqExists env.pipOk fs).evs ++
         (runNotebookModel machine env.ts env.parseOk env.execOk
           (pullRepoModel machine env.ts env.pullOk env.reqExists env.pipOk fs).fs).evs ++
         [CEv.sleepPoll],
       [], false⟩ := by
  unfold cycleModel
  simp [hf, hr, hne, hok]

lemma moveOut_results (machine ts : String) (err : Bool) (fs : FS) (h : fs.inbox = true) :
    (moveNotebookModel machine ts err fs).fs.results =
      fs.results ++ [resultName machine (statusStr err) ts] := by
  unfold moveNotebookModel
  simp [h]

/-- Python str() of an optional environment value: os.getenv returns None when
MACHINE_NUMBER is unset, and an f-string renders None as the text None. -/
def pyOptStr : Option String → String
  | none => "None"
  | some s => s

/-- Configuration computed at module level in main.py. -/
structure StartupConfig where
  machineNumber : Option String
  machineFolder : String
  logPath : String
deriving DecidableEq

/-- Module-level startup of main.py: load_dotenv(".env.local"),
MACHINE_NUMBER = os.getenv("MACHINE_NUMBER"), and the derived machine folder
and log path. No validation of MACHINE_NUMBER is performed anywhere. -/
def startupModel (m : Option String) : StartupConfig :=
  ⟨m, "machine_" ++ pyOptStr m, "machine_" ++ pyOptStr m ++ "/log.txt"⟩

/-- Startup as a fallible computation: none of load_dotenv, os.getenv, and
os.path.join raises when the variable is unset (os.getenv just returns None),
so module initialization always succeeds and check_for_changes is entered
unconditionally. -/
def startupOutcome (m : Option String) : Except String StartupConfig :=
  Except.ok (startupModel m)

/-- C8 counterexample: with MACHINE_NUMBER unset (os.getenv returning None),
startup succeeds — it does not fail with a fatal configuration error, refuting
the claim that absence of the identity setting aborts the program before the
poll loop. -/
theorem c8_claim_false : startupOutcome none = Except.ok (startupModel none) := rfl

/-- C8 amended: startup never fails regardless of whether MACHINE_NUMBER is
set; when it is unset the program continues into the poll loop with the
degenerate machine folder machine_None (from rendering Python None in the
f-string) and machineNumber = None. -/
theorem c8_unset_identity_continues :
    (∀ m : Option String, startupOutcome m = Except.ok (startupModel m)) ∧
    (startupModel none).machineFolder = "machine_None" ∧
    (startupModel none).machineNumber = none :=
  ⟨fun _ => rfl, rfl, rfl⟩

/-- C1: one poll cycle reaches the pull (sync) step exactly when git fetch and
git rev-parse succeed and the observed ref differs from last_commit; when they
are equal the cycle just sleeps and returns to the top of the loop; and
last_commit is initially None, so the very first observed ref always differs. -/
theorem c1_sync_iff_ref_changed (machine : String) (env : CycleEnv) (last : Option String)
    (fs : FS) :
    (CEv.pullCall ∈ (cycleModel machine env last fs).evs ↔
      env.fetchOk = true ∧ env.ref? ≠ none ∧ env.ref? ≠ last) ∧
    initialLastCommit = none := by
  refine ⟨?_, rfl⟩
  cases hf : env.fetchOk
  · rw [cycle_fetchFail machine env last fs hf]
    simp [hf, not_mem_logExc machine env.ts fs CEv.pullCall (by simp) (by simp) (by simp)]
  · cases hr : env.ref? with
    | none =>
        rw [cycle_revFail machine env last fs hf hr]
        simp [hr, not_mem_logExc machine env.ts fs CEv.pullCall (by simp) (by simp) (by simp)]
    | some r =>
        by_cases heq : some r = last
        · rw [cycle_nochange machine env last fs r hf hr heq]
          simp [hr, heq]
        · cases hok : (runNotebookModel machine env.ts env.parseOk env.execOk
              (pullRepoModel machine env.ts env.pullOk env.reqExists env.pipOk fs).fs).ok
          · rw [cycle_changed_norun machine env last fs r hf hr heq hok]
            simp [hf, hr, heq,
              pull_mem_pullCall machine env.ts env.pullOk env.reqExists env.pipOk fs]
          · rw [cycle_changed_run machine env last fs r hf hr heq hok]
            simp [hf, hr, heq,
              pull_mem_pullCall machine env.ts env.pullOk env.reqExists env.pipOk fs]

/-- C9: when a new ref r is observed, last_commit is set to r in that same
cycle — whatever later happens to pull, execution, or publishing (the
environment env is unconstrained there, and the update is never rolled back) —
and any later cycle observing the same ref r neither pulls nor looks for a job:
the failed change is treated as already seen. -/
theorem c9_ref_recorded_before_processing (machine : String) (env env2 : CycleEnv)
    (last : Option String) (fs fs2 : FS) (r : String)
    (hf : env.fetchOk = true) (hr : env.ref? = some r) (hne : some r ≠ last)
    (hr2 : env2.ref? = some r) :
    (cycleModel machine env last fs).last = some r ∧
    CEv.pullCall ∉ (cycleModel machine env2 (cycleModel machine env last fs).last fs2).evs ∧
    CEv.enterRun ∉ (cycleModel machine env2 (cycleModel machine env last fs).last fs2).evs := by
  have h1 : (cycleModel machine env last fs).last = some r := by
    cases hok : (runNotebookModel machine env.ts env.parseOk env.execOk
        (pullRepoModel machine env.ts env.pullOk env.reqExists env.pipOk fs).fs).ok
    · rw [cycle_changed_norun machine env last fs r hf hr hne hok]
    · rw [cycle_changed_run machine env last fs r hf hr hne hok]
  have h2 : ∀ e : CEv, e ≠ CEv.fetchCall → e ≠ CEv.revParseCall → e ≠ CEv.sleepPoll →
      e ≠ CEv.logExc → e ≠ CEv.pushLogCall → (∀ s n, e ≠ CEv.moveNb s n) →
      e ∉ (cycleModel machine env2 (some r) fs2).evs := by
    intro e e1 e2 e3 e4 e5 e6
    cases hf2 : env2.fetchOk
    · rw [cycle_fetchFail machine env2 (some r) fs2 hf2]
      simp [e1, e3, not_mem_logExc machine env2.ts fs2 e e4 e5 e6]
    · rw [cycle_nochange machine env2 (some r) fs2 r hf2 hr2 rfl]
      simp [e1, e2, e3]
  rw [h1]
  exact ⟨rfl,
    h2 CEv.pullCall (by simp) (by simp) (by simp) (by simp) (by simp) (by simp),
    h2 CEv.enterRun (by simp) (by simp) (by simp) (by simp) (by simp) (by simp)⟩

/-- C4 amended: when the sync step fails (git pull fails, or pip install of the
root requirements fails), pull_repo's own handler logs the exception, relocates
any inbox artifact to results/ tagged error, and pushes the log; the cycle then
still calls run_notebook (the Executing step is entered, contrary to the claim)
but, the artifact having been moved away, the Execution Engine run step is
never invoked, no job is executed, and push_results is not called. -/
theorem c4_failed_sync_no_execution (machine : String) (env : CycleEnv)
    (last : Option String) (fs : FS) (r : String)
    (hf : env.fetchOk = true) (hr : env.ref? = some r) (hne : some r ≠ last)
    (hfail : env.pullOk = false ∨ (env.reqExists = true ∧ env.pipOk = false)) :
    CEv.enterRun ∈ (cycleModel machine env last fs).evs ∧
    CEv.preprocess ∉ (cycleModel machine env last fs).evs ∧
    CEv.pushResultsCall ∉ (cycleModel machine env last fs).evs ∧
    CEv.logExc ∈ (cycleModel machine env last fs).evs ∧
    (cycleModel machine env last fs).fs.inbox = false ∧
    (fs.inbox = true →
      CEv.moveNb "error" (resultName machine "error" env.ts) ∈
        (cycleModel machine env last fs).evs) := by
  obtain ⟨hpofs, hlogmem, hmv⟩ :=
    pull_fail machine env.ts env.pullOk env.reqExists env.pipOk fs hfail
  have hin0 : (pullRepoModel machine env.ts env.pullOk env.reqExists env.pipOk fs).fs.inbox
      = false := by
    rw [hpofs]
    exact logExc_inbox machine env.ts fs
  have hrun : runNotebookModel machine env.ts env.parseOk env.execOk
      (pullRepoModel machine env.ts env.pullOk env.reqExists env.pipOk fs).fs =
      ⟨false, (pullRepoModel machine env.ts env.pullOk env.reqExists env.pipOk fs).fs,
       [CEv.enterRun, CEv.logNoNotebook]⟩ :=
    run_noInbox machine env.ts env.parseOk env.execOk _ hin0
  have hok : (runNotebookModel machine env.ts env.parseOk env.execOk
      (pullRepoModel machine env.ts env.pullOk env.reqExists env.pipOk fs).fs).ok = false := by
    rw [hrun]
  rw [cycle_changed_norun machine env last fs r hf hr hne hok, hrun]
  refine ⟨by simp, ?_, ?_, by simp [hlogmem], hin0, fun hin => by simp [hmv hin]⟩
  · simp [not_mem_pullRepo machine env.ts env.pullOk env.reqExists env.pipOk fs CEv.preprocess
      (by simp) (by simp) (by simp) (by simp) (by simp)]
  · simp [not_mem_pullRepo machine env.ts env.pullOk env.reqExists env.pipOk fs
      CEv.pushResultsCall (by simp) (by simp) (by simp) (by simp) (by simp)]

/-- C6 amended: a malformed run.ipynb (one that nbformat fails to parse) makes
run_notebook return False without ever invoking ep.preprocess (the read raises
first, before the ExecutePreprocessor is constructed); its handler does,
however, have side effects beyond logging: the artifact is relocated to
results/ tagged error (emptying the inbox) and the log is committed-and-pushed. -/
theorem c6_malformed_no_preprocess (machine ts : String) (execOk : Bool) (fs : FS)
    (hin : fs.inbox = true) :
    (runNotebookModel machine ts false execOk fs).ok = false ∧
    CEv.preprocess ∉ (runNotebookModel machine ts false execOk fs).evs ∧
    CEv.moveNb "error" (resultName machine "error" ts) ∈
      (runNotebookModel machine ts false execOk fs).evs ∧
    CEv.pushLogCall ∈ (runNotebookModel machine ts false execOk fs).evs ∧
    (runNotebookModel machine ts false execOk fs).fs.inbox = false := by
  rw [run_parseFail machine ts execOk fs hin]
  refine ⟨rfl, ?_, ?_, ?_, logExc_inbox machine ts fs⟩
  · simp [not_mem_logExc machine ts fs CEv.preprocess (by simp) (by simp) (by simp)]
  · simp [(logExc_move machine ts fs hin).1]
  · simp [(logExc_mem machine ts fs).2]

/-- C10: when git fetch or git rev-parse fails, the poll loop's except clause
calls log_exception, which logs the traceback, relocates whatever artifact sits
at the inbox to results/ tagged error — although nothing was executed
(ep.preprocess never ran this cycle) — and then commits and pushes the log via
push_log. -/
theorem c10_handler_relocates_and_pushes_log (machine : String) (env : CycleEnv)
    (last : Option String) (fs : FS)
    (hfail : env.fetchOk = false ∨ env.ref? = none) :
    CEv.logExc ∈ (cycleModel machine env last fs).evs ∧
    CEv.pushLogCall ∈ (cycleModel machine env last fs).evs ∧
    CEv.preprocess ∉ (cycleModel machine env last fs).evs ∧
    (cycleModel machine env last fs).fs.inbox = false ∧
    (fs.inbox = true →
      CEv.moveNb "error" (resultName machine "error" env.ts) ∈
        (cycleModel machine env last fs).evs ∧
      resultName machine "error" env.ts ∈ (cycleModel machine env last fs).fs.results) := by
  have shape : (cycleModel machine env last fs).fs = (logExceptionModel machine env.ts fs).fs ∧
      (∀ e, e ∈ (logExceptionModel machine env.ts fs).evs →
        e ∈ (cycleModel machine env last fs).evs) ∧
      CEv.preprocess ∉ (cycleModel machine env last fs).evs := by
    cases hf : env.fetchOk
    · rw [cycle_fetchFail machine env last fs hf]
      refine ⟨rfl, by intro e he; simp [he], ?_⟩
      simp [not_mem_logExc machine env.ts fs CEv.preprocess (by simp) (by simp) (by simp)]
    · have hr : env.ref? = none := by
        rcases hfail with h | h
        · rw [hf] at h
          cases h
        · exact h
      rw [cycle_revFail machine env last fs hf hr]
      refine ⟨rfl, by intro e he; simp [he], ?_⟩
      simp [not_mem_logExc machine env.ts fs CEv.preprocess (by simp) (by simp) (by simp)]
  obtain ⟨hfs, hsub, hnp⟩ := shape
  refine ⟨hsub _ (logExc_mem machine env.ts fs).1, hsub _ (logExc_mem machine env.ts fs).2,
    hnp, ?_, fun hin => ⟨hsub _ (logExc_move machine env.ts fs hin).1, ?_⟩⟩
  · rw [hfs]
    exact logExc_inbox machine env.ts fs
  · rw [hfs, (logExc_move machine env.ts fs hin).2]
    simp

lemma run_fail_shape (machine ts : String) (parseOk execOk : Bool) (fs : FS)
    (hin : fs.inbox = true) (hbad : parseOk = false ∨ execOk = false) :
    runNotebookModel machine ts parseOk execOk fs =
      ⟨false, (logExceptionModel machine ts fs).fs,
       [CEv.enterRun, CEv.readNb] ++ (logExceptionModel machine ts fs).evs⟩ ∨
    runNotebookModel machine ts parseOk execOk fs =
      ⟨false, (logExceptionModel machine ts fs).fs,
       [CEv.enterRun, CEv.readNb, CEv.preprocess] ++ (logExceptionModel machine ts fs).evs⟩ := by
  cases hp : parseOk
  · exact Or.inl (run_parseFail machine ts execOk fs hin)
  · have he : execOk = false := by
      rcases hbad with hb | hb
      · rw [hp] at hb
        cases hb
      · exact hb
    rw [he]
    exact Or.inr (run_execFail machine ts fs hin)

/-- C5 amended: an artifact present at the inbox when a cycle processes it
(new ref observed, sync succeeded) always ends up in results/ under
run_{machine}_{status}_{timestamp}.ipynb with the inbox empty afterwards:
status is the tag success after successful execution (and push_results is then
invoked), and the tag error — not failure — after failing execution (and
push_results is then not invoked). -/
theorem c5_relocation_tags (machine : String) (env : CycleEnv) (last : Option String)
    (fs : FS) (r : String)
    (hf : env.fetchOk = true) (hr : env.ref? = some r) (hne : some r ≠ last)
    (hp : env.pullOk = true) (hreq : env.reqExists = false ∨ env.pipOk = true)
    (hin : fs.inbox = true) :
    (env.parseOk = true → env.execOk = true →
      (cycleModel machine env last fs).fs.inbox = false ∧
      resultName machine "success" env.ts ∈ (cycleModel machine env last fs).fs.results ∧
      CEv.pushResultsCall ∈ (cycleModel machine env last fs).evs) ∧
    (env.parseOk = false ∨ env.execOk = false →
      (cycleModel machine env last fs).fs.inbox = false ∧
      resultName machine "error" env.ts ∈ (cycleModel machine env last fs).fs.results ∧
      CEv.pushResultsCall ∉ (cycleModel machine env last fs).evs) := by
  have hpo : (pullRepoModel machine env.ts env.pullOk env.reqExists env.pipOk fs).fs = fs := by
    rw [hp]
    exact pull_ok_fs machine env.ts env.reqExists env.pipOk fs hreq
  constructor
  · intro hparse hexec
    have hrun : runNotebookModel machine env.ts env.parseOk env.execOk
        (pullRepoModel machine env.ts env.pullOk env.reqExists env.pipOk fs).fs =
        ⟨true, (moveNotebookModel machine env.ts false fs).fs,
         [CEv.enterRun, CEv.readNb, CEv.preprocess, CEv.saveNb, CEv.logExecSuccess] ++
           (moveNotebookModel machine env.ts false fs).evs⟩ := by
      rw [hpo, hparse, hexec]
      exact run_allOk machine env.ts fs hin
    have hok : (runNotebookModel machine env.ts env.parseOk env.execOk
        (pullRepoModel machine env.ts env.pullOk env.reqExists env.pipOk fs).fs).ok = true := by
      rw [hrun]
    rw [cycle_changed_run machine env last fs r hf hr hne hok, hrun]
    refine ⟨moveOut_inbox machine env.ts false fs, ?_, by simp⟩
    have := moveOut_results machine env.ts false fs hin
    rw [show (statusStr false) = "success" from rfl] at this
    simp [this]
  · intro hbad
    rcases run_fail_shape machine env.ts env.parseOk env.execOk fs hin hbad with hrun | hrun
    all_goals {
      have hrun2 : runNotebookModel machine env.ts env.parseOk env.execOk
          (pullRepoModel machine env.ts env.pullOk env.reqExists env.pipOk fs).fs =
          runNotebookModel machine env.ts env.parseOk env.execOk fs := by
        rw [hpo]
      have hok : (runNotebookModel machine env.ts env.parseOk env.execOk
          (pullRepoModel machine env.ts env.pullOk env.reqExists env.pipOk fs).fs).ok
          = false := by
        rw [hrun2, hrun]
      rw [cycle_changed_norun machine env last fs r hf hr hne hok, hrun2, hrun]
      refine ⟨logExc_inbox machine env.ts fs, ?_, ?_⟩
      · rw [(logExc_move machine env.ts fs hin).2]
        simp
      · simp [not_mem_pullRepo machine env.ts env.pullOk env.reqExists env.pipOk fs
          CEv.pushResultsCall (by simp) (by simp) (by simp) (by simp) (by simp),
          not_mem_logExc machine env.ts fs CEv.pushResultsCall (by simp) (by simp) (by simp)]
    }

/-- A push_results environment where the first push attempt succeeds. -/
def pushEnvOk : Nat → IterSpec := fun _ => ⟨60, none, 30⟩

/-- Cycle environment: new ref, sync ok, well-formed notebook, execution ok. -/
def envExecOkW : CycleEnv :=
  ⟨true, some "r1", true, false, true, true, true, "20250101_120000", pushEnvOk⟩

/-- Witness for C1 at a concrete changed-ref environment starting from the
initial (None) last_commit: the cycle pulls. -/
theorem c1_witness :
    CEv.pullCall ∈ (cycleModel "3" envExecOkW initialLastCommit ⟨false, []⟩).evs :=
  (c1_sync_iff_ref_changed "3" envExecOkW initialLastCommit ⟨false, []⟩).1.mpr
    (by refine ⟨rfl, ?_, ?_⟩ <;> simp [envExecOkW, initialLastCommit])

/-- Witness for C5 amended: the spec scenario — identity 3, a well-formed job,
successful execution — yields run_3_success_timestamp in results/, an empty
inbox, and a push_results invocation. -/
theorem c5_witness :
    (cycleModel "3" envExecOkW none ⟨true, []⟩).fs.inbox = false ∧
    resultName "3" "success" "20250101_120000" ∈
      (cycleModel "3" envExecOkW none ⟨true, []⟩).fs.results ∧
    CEv.pushResultsCall ∈ (cycleModel "3" envExecOkW none ⟨true, []⟩).evs :=
  (c5_relocation_tags "3" envExecOkW none ⟨true, []⟩ "r1" rfl rfl (by simp) rfl
    (Or.inl rfl) rfl).1 rfl rfl

/-- Cycle environment identical to envExecOkW except that execution fails. -/
def envExecFail : CycleEnv :=
  ⟨true, some "r1", true, false, true, true, false, "20250101_120000", pushEnvOk⟩

/-- C5 counterexample: a failing execution relocates the artifact tagged error,
and no name in results/ carries the tag failure claimed by the spec. -/
theorem c5_claim_false :
    (cycleModel "3" envExecFail none ⟨true, []⟩).fs.results =
      [resultName "3" "error" "20250101_120000"] ∧
    (∀ n ∈ (cycleModel "3" envExecFail none ⟨true, []⟩).fs.results,
      containsSub "failure" n = false) := by
  decide

/-- Cycle environment where git pull fails while a job artifact is present. -/
def envPullFail : CycleEnv :=
  ⟨true, some "r1", false, false, true, true, true, "20250101_120000", pushEnvOk⟩

/-- C4 counterexample: with the pull failing, the cycle does not stop after
logging — it relocates the inbox artifact to results/ tagged error, pushes the
log, and still calls run_notebook (the Executing step), refuting the claim that
a failed sync returns to Idle without advancing to the Executing step. -/
theorem c4_claim_false :
    envPullFail.pullOk = false ∧
    CEv.enterRun ∈ (cycleModel "3" envPullFail none ⟨true, []⟩).evs ∧
    CEv.moveNb "error" (resultName "3" "error" "20250101_120000") ∈
      (cycleModel "3" envPullFail none ⟨true, []⟩).evs ∧
    CEv.pushLogCall ∈ (cycleModel "3" envPullFail none ⟨true, []⟩).evs := by
  decide

/-- Witness for C4 amended at the concrete pull-failure environment. -/
theorem c4_witness :
    CEv.enterRun ∈ (cycleModel "3" envPullFail none ⟨true, []⟩).evs ∧
    CEv.preprocess ∉ (cycleModel "3" envPullFail none ⟨true, []⟩).evs ∧
    CEv.pushResultsCall ∉ (cycleModel "3" envPullFail none ⟨true, []⟩).evs ∧
    CEv.moveNb "error" (resultName "3" "error" "20250101_120000") ∈
      (cycleModel "3" envPullFail none ⟨true, []⟩).evs :=
  have h := c4_failed_sync_no_execution "3" envPullFail none ⟨true, []⟩ "r1" rfl rfl
    (by simp) (Or.inl rfl)
  ⟨h.1, h.2.1, h.2.2.1, h.2.2.2.2.2 rfl⟩

/-- C6 counterexample: a malformed notebook is not handled by logging alone —
its handler relocates the artifact to results/ tagged error and pushes the log
(while indeed never reaching ep.preprocess), refuting the no-side-effects-
beyond-logging part of the claim. -/
theorem c6_claim_false :
    (runNotebookModel "3" "t6" false true ⟨true, []⟩).fs =
      ⟨false, [resultName "3" "error" "t6"]⟩ ∧
    CEv.moveNb "error" (resultName "3" "error" "t6") ∈
      (runNotebookModel "3" "t6" false true ⟨true, []⟩).evs ∧
    CEv.pushLogCall ∈ (runNotebookModel "3" "t6" false true ⟨true, []⟩).evs ∧
    CEv.preprocess ∉ (runNotebookModel "3" "t6" false true ⟨true, []⟩).evs := by
  decide

/-- Witness for C6 amended at a concrete malformed-notebook input. -/
theorem c6_witness :
    (runNotebookModel "3" "t6" false true ⟨true, []⟩).ok = false ∧
    CEv.preprocess ∉ (runNotebookModel "3" "t6" false true ⟨true, []⟩).evs ∧
    CEv.moveNb "error" (resultName "3" "error" "t6") ∈
      (runNotebookModel "3" "t6" false true ⟨true, []⟩).evs ∧
    CEv.pushLogCall ∈ (runNotebookModel "3" "t6" false true ⟨true, []⟩).evs ∧
    (runNotebookModel "3" "t6" false true ⟨true, []⟩).fs.inbox = false :=
  c6_malformed_no_preprocess "3" "t6" true ⟨true, []⟩ rfl

/-- Cycle environment where the pull, parse and execution would all succeed but
nothing else matters because a failure is injected elsewhere per theorem. -/
def envFetchFail : CycleEnv :=
  ⟨false, none, true, false, true, true, true, "20250101_120000", pushEnvOk⟩

/-- Witness for C10 at a concrete fetch-failure environment with an artifact in
the inbox: the never-executed artifact is relocated tagged error and the log is
pushed. -/
theorem c10_witness :
    CEv.logExc ∈ (cycleModel "3" envFetchFail none ⟨true, []⟩).evs ∧
    CEv.pushLogCall ∈ (cycleModel "3" envFetchFail none ⟨true, []⟩).evs ∧
    CEv.preprocess ∉ (cycleModel "3" envFetchFail none ⟨true, []⟩).evs ∧
    CEv.moveNb "error" (resultName "3" "error" "20250101_120000") ∈
      (cycleModel "3" envFetchFail none ⟨true, []⟩).evs ∧
    resultName "3" "error" "20250101_120000" ∈
      (cycleModel "3" envFetchFail none ⟨true, []⟩).fs.results :=
  have h := c10_handler_relocates_and_pushes_log "3" envFetchFail none ⟨true, []⟩ (Or.inl rfl)
  ⟨h.1, h.2.1, h.2.2.1, (h.2.2.2.2 rfl).1, (h.2.2.2.2 rfl).2⟩

/-- Cycle environment for a second look at the same ref r1 after a first cycle
whose pull, parse and execution all failed. -/
def envSameRef : CycleEnv :=
  ⟨true, some "r1", true, false, true, true, true, "20250102_080000", pushEnvOk⟩

/-- Witness for C9: a first cycle that observes r1 and then fails its pull still
records r1, and a second cycle seeing r1 neither pulls nor enters run_notebook. -/
theorem c9_witness :
    (cycleModel "3" envPullFail none ⟨true, []⟩).last = some "r1" ∧
    CEv.pullCall ∉
      (cycleModel "3" envSameRef (cycleModel "3" envPullFail none ⟨true, []⟩).last
        ⟨false, []⟩).evs ∧
    CEv.enterRun ∉
      (cycleModel "3" envSameRef (cycleModel "3" envPullFail none ⟨true, []⟩).last
        ⟨false, []⟩).evs :=
  c9_ref_recorded_before_processing "3" envPullFail envSameRef none ⟨true, []⟩ ⟨false, []⟩
    "r1" rfl rfl (by simp) rfl

end ComputeFarm
